import Mathlib

/-!
Verification of the hummingbot script execution and live-control bridge
(`hummingbot/script/` and `hummingbot/client/command/`).

Python sources are shallowly embedded as Lean definitions:
* `Decimal` values are modelled as exact rationals (`ℚ`); Python `Decimal`
  floor division (`//`, divide-integer) truncates toward zero and is
  modelled with `Int.tdiv`.
* Python `None` is modelled with `Option`.
* side effects (queue puts, attribute writes, hook invocations,
  notifications) are modelled as explicit event lists or state records.
-/

/-! ## Reactive parameter set (`hummingbot/script/script_interface.py`) -/

/-- One primitive effect performed by `StrategyParameter.__set__`
(script_interface.py lines 26-32), in execution order:
`enqueue` is `child_queue.put(self)` (the descriptor carries
`self.name` and `self.updated_value`, i.e. a `ParameterChanged(name, new_value)`
message on the shared outbound channel), `store` is
`setattr(obj, self.attr, value)` (overwriting the stored value). -/
inductive ParamEvent (V : Type) where
  | enqueue (name : String) (new_value : Option V)
  | store (value : Option V)
  deriving DecidableEq

/-- `StrategyParameter` (script_interface.py lines 13-35): `name` is the
attribute name, `updated_value` is the descriptor's `updated_value` field and
`stored` is the backing attribute `"_" + name` on the owning `PMMParameters`
object (initialized to `None` by `PMMParameters.__init__`). -/
structure StrategyParameter (V : Type) where
  name : String
  updated_value : Option V
  stored : Option V
  deriving DecidableEq

/-- `StrategyParameter.__init__` together with the owner's backing slot:
`updated_value = None` and the backing attribute starts as `None`. -/
def StrategyParameter.init (V : Type) (attr : String) : StrategyParameter V :=
  { name := attr, updated_value := none, stored := none }

/-- `StrategyParameter.__set__` (script_interface.py lines 26-32):
reads `old_value`; if `old_value is not None and old_value != value` it sets
`updated_value` and puts itself on `child_queue`, and in every case it then
stores `value`.  Returns the new descriptor/slot state together with the
ordered list of effects performed. -/
def StrategyParameter.set {V : Type} [DecidableEq V] (self : StrategyParameter V)
    (value : Option V) : StrategyParameter V × List (ParamEvent V) :=
  let old_value := self.stored
  if old_value ≠ none ∧ old_value ≠ value then
    ({ self with updated_value := value, stored := value },
      [ParamEvent.enqueue self.name value, ParamEvent.store value])
  else
    ({ self with stored := value }, [ParamEvent.store value])

/-! ## Adapter (`hummingbot/script/script_adapter.py`) -/

/-- The positional argument tuple of the call `self.script.tick(...)` made by
`ScriptAdapter.tick` (script_adapter.py lines 48-57).  Field names follow the
adapter's own parameter names; `all_available_balances` is the value occupying
the fourth positional slot of the call. -/
structure TickCall (M P B O T : Type) where
  mid_price : M
  pmm_parameters : P
  all_total_balances : B
  all_available_balances : B
  orders : O
  trades : T
  deriving DecidableEq

namespace ScriptAdapter

/-- `ScriptAdapter.tick` (script_adapter.py lines 48-57): when a script is
loaded it calls `self.script.tick(mid_price, pmm_parameters,
all_total_balances, all_total_balances, orders, trades)` — note line 56 passes
`all_total_balances` twice; the `all_available_balances` parameter is unused.
Returns the argument tuple of the call made, or `none` when no script is
loaded. -/
def tick {M P B O T : Type} (script_loaded : Bool) (mid_price : M)
    (pmm_parameters : P) (all_total_balances all_available_balances : B)
    (orders : O) (trades : T) : Option (TickCall M P B O T) :=
  if script_loaded then
    some { mid_price := mid_price
           pmm_parameters := pmm_parameters
           all_total_balances := all_total_balances
           all_available_balances := all_total_balances
           orders := orders
           trades := trades }
  else none

/-- `ScriptAdapter.command` (script_adapter.py lines 75-77): when a script is
loaded, calls `self.script.on_command(cmd, args)` once.  Returns the list of
`on_command` invocations performed (each as the `(cmd, args)` pair passed). -/
def command (script_loaded : Bool) (cmd : String) (args : List String) :
    List (String × List String) :=
  if script_loaded then [(cmd, args)] else []

end ScriptAdapter

/-- One entry of `dir(module)` for a dynamically loaded script module, with
the two facts `ScriptAdapter.import_script_sub_class` tests about the bound
object: `inspect.isclass(obj)` and `issubclass(obj, ScriptBase)`. -/
structure ModuleMember where
  name : String
  is_class : Bool
  is_script_base_subclass : Bool
  deriving DecidableEq

/-- The selection predicate of the loop body in
`ScriptAdapter.import_script_sub_class` (script_adapter.py line 41):
`inspect.isclass(obj) and issubclass(obj, ScriptBase) and obj.__name__ != "ScriptBase"`. -/
def qualifiesAsScript (obj : ModuleMember) : Bool :=
  obj.is_class && obj.is_script_base_subclass && (obj.name != "ScriptBase")

/-- `ScriptAdapter.import_script_sub_class` (script_adapter.py lines 34-42):
iterates over `dir(module)` in order and returns the first member whose bound
object is a class, a subclass of `ScriptBase` and not named `"ScriptBase"`;
falls through (returns `None`) when no member qualifies. -/
def import_script_sub_class (module_dir : List ModuleMember) : Option ModuleMember :=
  module_dir.find? qualifiesAsScript

/-- `ScriptAdapter.load_script` (script_adapter.py lines 28-32): activation
succeeds exactly when `import_script_sub_class` returns a class (`None` makes
`script_class()` raise, so no script is activated). -/
def load_script (module_dir : List ModuleMember) : Option ModuleMember :=
  import_script_sub_class module_dir

/-- A concrete loaded module exposing two distinct qualifying concrete
subtypes of `ScriptBase` (plus the imported `ScriptBase` itself, which the
name check excludes). -/
def moduleWithTwoScripts : List ModuleMember :=
  [{ name := "AScript", is_class := true, is_script_base_subclass := true },
   { name := "BScript", is_class := true, is_script_base_subclass := true },
   { name := "ScriptBase", is_class := true, is_script_base_subclass := true }]

/-! ## Host-side script command (`hummingbot/client/command/script_command.py`) -/

/-- The action selected by `ScriptCommand.script_command`
(script_command.py lines 16-25): launch the live-update coroutine
(`safe_ensure_future(self.script_live_updates())`), forward to
`self._script_iterator.command(cmd, args)`, or notify that no script is
active. -/
inductive ScriptCommandAction where
  | launch_live_updates
  | forward (cmd : String) (args : List String)
  | notify_no_script
  deriving DecidableEq

/-- `ScriptCommand.script_command` (script_command.py lines 16-25): with an
active script iterator, the reserved command `"live"` launches the live-update
loop and every other command is forwarded verbatim to the iterator. -/
def script_command (script_iterator_present : Bool) (cmd : String)
    (args : List String) : ScriptCommandAction :=
  if script_iterator_present then
    if cmd = "live" then ScriptCommandAction.launch_live_updates
    else ScriptCommandAction.forward cmd args
  else ScriptCommandAction.notify_no_script

/-- The `on_command` invocations reaching the script for one issued command:
`script_command` dispatches, and only a forwarded command reaches
`ScriptAdapter.command` (script_adapter.py lines 75-77), which invokes the
script's `on_command` hook.  The `"live"` branch only schedules
`script_live_updates` and never calls into the script. -/
def on_command_calls (script_iterator_present script_loaded : Bool)
    (cmd : String) (args : List String) : List (String × List String) :=
  match script_command script_iterator_present cmd args with
  | ScriptCommandAction.forward c a => ScriptAdapter.command script_loaded c a
  | _ => []

/-! ## Error capture bridge (spec-modelled) -/

/-- `ScriptError` (script_interface.py lines 199-205): an uncaught failure
inside script logic, carrying the underlying error and the traceback text. -/
structure ScriptError where
  error : String
  traceback : String
  deriving DecidableEq

/-- The outcome of one script hook invocation: normal return or an uncaught
exception carrying cause and trace. -/
def HookOutcome := Except ScriptError Unit

/-- State of the host-side bridge across tick deliveries: the ticks the
script's hook has been invoked on (in order) and the captured `Error`
messages (in order). -/
structure BridgeRunState where
  ticks_delivered : List Nat
  errors : List ScriptError
  deriving DecidableEq

/-- Modelled from the spec: the host-side wrapper around each script hook
invocation lives in `ScriptIterator` (hummingbot/script/script_iterator.py),
which is not under src/.  Per the spec (§7), an uncaught failure inside a
script hook is "captured as an `Error` message (cause + trace), forwarded to
the host's notification sink; must not propagate into and terminate the
host's own control loop".  Delivering one tick therefore always invokes the
hook and, when the hook raises, records exactly one `ScriptError` instead of
propagating. -/
def deliver_tick (on_tick : Nat → HookOutcome) (st : BridgeRunState)
    (t : Nat) : BridgeRunState :=
  match on_tick t with
  | Except.ok _ => { st with ticks_delivered := st.ticks_delivered ++ [t] }
  | Except.error e =>
      { ticks_delivered := st.ticks_delivered ++ [t], errors := st.errors ++ [e] }

/-- Modelled from the spec: the bridge's control loop delivers each tick in
turn through `deliver_tick`, never terminating early on a script failure. -/
def run_ticks (on_tick : Nat → HookOutcome) (ticks : List Nat) : BridgeRunState :=
  ticks.foldl (deliver_tick on_tick) { ticks_delivered := [], errors := [] }

/-- The `Error` message a given tick contributes: `some` exactly when the
hook raises on that tick. -/
def raised_error (on_tick : Nat → HookOutcome) (t : Nat) : Option ScriptError :=
  match on_tick t with
  | Except.ok _ => none
  | Except.error e => some e

/-! ## Sampling and statistics utilities (`hummingbot/script/script_base.py`) -/

/-- Python `range(start, -1, -step)` (script_base.py line 224 with
`start = len(a_list) - 1`, `step = interval`): the values
`start, start - step, start - 2*step, ...` while they remain `≥ 0`;
empty when `start < 0`. -/
def pyRangeDown (start : Int) (step : Nat) : List Int :=
  if start < 0 then []
  else (List.range (start.toNat / step + 1)).map
    (fun (k : Nat) => start - (k : Int) * (step : Int))

/-- `ScriptBase.take_samples` (script_base.py lines 213-233):
`index_list = sorted(range(len(a_list) - 1, -1, -interval))` — the range is
strictly decreasing, so `sorted` reverses it — then `index_list[-length:]`,
the insufficient-data check, the single-sample special case, and
`itemgetter(*index_list)(a_list)`.  List indexing `a_list[i]` is modelled by
`getD`; every index produced is in range. -/
def take_samples {α : Type} [Inhabited α] (a_list : List α) (interval : Nat)
    (length : Nat) : Option (List α) :=
  let index_list := pyRangeDown ((a_list.length : Int) - 1) interval
  let sorted_list := index_list.reverse
  let tail_list := sorted_list.drop (sorted_list.length - length)
  if tail_list.length < length then none
  else if tail_list.length = 1 then
    some [a_list.getD (tail_list.getD 0 0).toNat default]
  else
    some (tail_list.map (fun i => a_list.getD i.toNat default))

/-- The number of strided indices counting backward from the last index of a
list of length `n` in steps of `interval` (the spec's "strided indices"). -/
def strided_sample_count (n interval : Nat) : Nat := (n + interval - 1) / interval

/-- The spec's description of `take_samples` (spec §4.3): the most recent
`length` values taken at stride `interval` counting backward from the end, in
chronological order; `none` when fewer than `length` strided indices exist. -/
def take_samples_spec {α : Type} [Inhabited α] (a_list : List α)
    (interval : Nat) (length : Nat) : Option (List α) :=
  if strided_sample_count a_list.length interval < length then none
  else some ((List.range length).map (fun j =>
    a_list.getD (a_list.length - 1 - (length - 1 - j) * interval) default))

/-- `statistics.mean` on exact rationals. -/
def meanQ (xs : List ℚ) : ℚ := xs.sum / (xs.length : ℚ)

/-- `statistics.median` on exact rationals: middle element of the sorted
sequence, or the average of the two middle elements. -/
def medianQ (xs : List ℚ) : ℚ :=
  let s := xs.mergeSort (fun a b => decide (a ≤ b))
  let n := s.length
  if n % 2 = 1 then s.getD (n / 2) 0
  else (s.getD (n / 2 - 1) 0 + s.getD (n / 2) 0) / 2

/-- `ScriptBase.round_by_step` (script_base.py lines 203-211):
`(a_number // step_size) * step_size` on `Decimal` values.  Python `Decimal`
floor division is divide-integer: the integer part of the true quotient,
truncated toward zero (`Int.tdiv` on the exact quotient). -/
def round_by_step (a_number step_size : ℚ) : ℚ :=
  (((a_number / step_size).num.tdiv ((a_number / step_size).den : Int) : Int) : ℚ) * step_size

/-- The claim's specification of `round_by_step x s`: `m` is the greatest
multiple of `s` that is less than or equal to `x`. -/
def IsGreatestStepMultipleLE (x s m : ℚ) : Prop :=
  (∃ k : ℤ, m = (k : ℚ) * s) ∧ m ≤ x ∧
    ∀ m' : ℚ, (∃ k : ℤ, m' = (k : ℚ) * s) → m' ≤ x → m' ≤ m

/-- `ScriptBase.locate_central_price_volatility` (script_base.py lines
178-201): the executable body is `pass` followed by the intended
implementation quoted as a (dead) string literal, so every call returns
`None`.  The parameters are those of the quoted implementation
(`self.mid_prices`, `interval`, `length`, `locate_function`). -/
def locate_central_price_volatility (mid_prices : List ℚ) (interval : Nat)
    (length : Nat) (locate_function : List ℚ → ℚ) : Option ℚ :=
  none

/-- `ScriptBase.avg_price_volatility` (script_base.py lines 156-165):
`self.locate_central_price_volatility(interval, length, mean)`. -/
def avg_price_volatility (mid_prices : List ℚ) (interval : Nat)
    (length : Nat) : Option ℚ :=
  locate_central_price_volatility mid_prices interval length meanQ

/-- `ScriptBase.median_price_volatility` (script_base.py lines 167-176):
`self.locate_central_price_volatility(interval, length, median)`. -/
def median_price_volatility (mid_prices : List ℚ) (interval : Nat)
    (length : Nat) : Option ℚ :=
  locate_central_price_volatility mid_prices interval length medianQ

/-- The behavior `locate_central_price_volatility` documents (its docstring,
script_base.py lines 180-189) and carries as a quoted implementation
(lines 192-201): sample `length + 1` mid prices with `take_samples`, return
`None` on a shortage, otherwise apply `locate_function` to the consecutive
ratio changes `max(samples[i], samples[i-1]) / min(samples[i], samples[i-1]) - 1`. -/
def locate_central_price_volatility_doc (mid_prices : List ℚ) (interval : Nat)
    (length : Nat) (locate_function : List ℚ → ℚ) : Option ℚ :=
  match take_samples mid_prices interval (length + 1) with
  | none => none
  | some samples =>
      some (locate_function ((List.range (samples.length - 1)).map (fun i =>
        max (samples.getD (i + 1) 0) (samples.getD i 0) /
          min (samples.getD (i + 1) 0) (samples.getD i 0) - 1)))

/-! ## Live-update loop (`hummingbot/client/command/script_command.py` lines
27-35, spec-modelled where `stop_live_update` is concerned) -/

/-- The control position of one invocation of the live-update coroutine
`ScriptCommand.script_live_updates` (script_command.py lines 27-35):
`stopping` — about to run `await self.stop_live_update()`;
`waiting` — `stop_live_update` has cleared the shared flag, waiting for any
prior loop to terminate (modelled from the spec: `stop_live_update` is
defined on `HummingbotApplication`, not under src/; per spec §4.5 "starting
a new one must first stop any existing one before proceeding");
`looping` — the flag has been set and the body `while self.app.live_updates:
await asyncio.sleep(1)` is running;
`finished` — the loop has exited and emitted its single
"Stopped script live update." notification. -/
inductive LiveThread where
  | stopping
  | waiting
  | looping
  | finished
  deriving DecidableEq

/-- Whether a live-update coroutine is inside its polling loop. -/
def isLooping : LiveThread → Bool
  | LiveThread.looping => true
  | _ => false

/-- Whether a live-update coroutine has terminated (and therefore has emitted
its "stopped" notification). -/
def isFinished : LiveThread → Bool
  | LiveThread.finished => true
  | _ => false

/-- Shared host state for the live-update loops: the shared flag
`self.app.live_updates`, the set of live-update coroutine invocations, and
the number of "Stopped script live update." notifications emitted so far. -/
structure LiveState where
  live_updates : Bool
  threads : List LiveThread
  stopped_notes : Nat
  deriving DecidableEq

/-- Cooperative (asyncio) interleaving of live-update coroutines.  Each
constructor is one scheduler slice of `script_live_updates`:
`spawn` — the user issues the `"live"` command, scheduling a new coroutine;
`clear_flag` — the coroutine's `await self.stop_live_update()` clears the
shared flag (modelled from the spec, see `LiveThread`);
`begin_loop` — `stop_live_update` returns only once no prior loop is still
polling; the coroutine then sets the flag and enters its `while` loop (one
slice: there is no `await` between the flag writes and the first check);
`poll` — the loop observes the flag still set and sleeps;
`exit_loop` — the loop observes the flag cleared, exits, and emits its
single "Stopped script live update." notification;
`user_clear` — the flag is cleared externally (the user ends live mode). -/
inductive LiveStep : LiveState → LiveState → Prop where
  | spawn (s : LiveState) :
      LiveStep s { s with threads := s.threads ++ [LiveThread.stopping] }
  | clear_flag (s : LiveState) (i : Nat)
      (h : s.threads.get? i = some LiveThread.stopping) :
      LiveStep s { live_updates := false,
                   threads := s.threads.set i LiveThread.waiting,
                   stopped_notes := s.stopped_notes }
  | begin_loop (s : LiveState) (i : Nat)
      (h : s.threads.get? i = some LiveThread.waiting)
      (hquiet : ∀ th ∈ s.threads, isLooping th = false) :
      LiveStep s { live_updates := true,
                   threads := s.threads.set i LiveThread.looping,
                   stopped_notes := s.stopped_notes }
  | poll (s : LiveState) (i : Nat)
      (h : s.threads.get? i = some LiveThread.looping)
      (hflag : s.live_updates = true) :
      LiveStep s s
  | exit_loop (s : LiveState) (i : Nat)
      (h : s.threads.get? i = some LiveThread.looping)
      (hflag : s.live_updates = false) :
      LiveStep s { live_updates := s.live_updates,
                   threads := s.threads.set i LiveThread.finished,
                   stopped_notes := s.stopped_notes + 1 }
  | user_clear (s : LiveState) :
      LiveStep s { s with live_updates := false }

/-- The host starts with live updates off, no live-update coroutine and no
"stopped" notification emitted. -/
def LiveInit : LiveState :=
  { live_updates := false, threads := [], stopped_notes := 0 }

/-- States the live-update subsystem can reach from start-up. -/
inductive LiveReachable : LiveState → Prop where
  | init : LiveReachable LiveInit
  | step {s t : LiveState} : LiveReachable s → LiveStep s t → LiveReachable t

/-! ## Helper lemmas -/

/-- Folding tick delivery over a tick list appends the ticks to the delivered
list and the raised errors to the error list. -/
theorem foldl_deliver_tick (on_tick : Nat → HookOutcome) (ticks : List Nat)
    (st : BridgeRunState) :
    ticks.foldl (deliver_tick on_tick) st =
      { ticks_delivered := st.ticks_delivered ++ ticks,
        errors := st.errors ++ ticks.filterMap (raised_error on_tick) } := by
  induction ticks generalizing st with
  | nil => simp
  | cons t ts ih =>
      simp only [List.foldl_cons]
      rw [ih]
      unfold deliver_tick
      cases h : on_tick t <;>
        simp [raised_error, List.filterMap_cons, h, List.append_assoc]

/-- `StrategyParameter.__set__` always stores the new value. -/
theorem strategyParameter_set_stored {V : Type} [DecidableEq V]
    (p : StrategyParameter V) (v : Option V) : (p.set v).1.stored = v := by
  unfold StrategyParameter.set
  dsimp only
  split <;> rfl

/-- `StrategyParameter.__set__` on an actual value change: one enqueue of the
new value, then the store. -/
theorem strategyParameter_set_events_emit {V : Type} [DecidableEq V]
    (p : StrategyParameter V) (v : Option V) (h1 : p.stored ≠ none)
    (h2 : p.stored ≠ v) :
    (p.set v).2 = [ParamEvent.enqueue p.name v, ParamEvent.store v] := by
  unfold StrategyParameter.set
  dsimp only
  rw [if_pos ⟨h1, h2⟩]

/-- `StrategyParameter.__set__` with the slot unset or the value unchanged:
only the store, no message. -/
theorem strategyParameter_set_events_silent {V : Type} [DecidableEq V]
    (p : StrategyParameter V) (v : Option V)
    (h : p.stored = none ∨ p.stored = v) :
    (p.set v).2 = [ParamEvent.store v] := by
  unfold StrategyParameter.set
  dsimp only
  rw [if_neg]
  rintro ⟨h1, h2⟩
  rcases h with h | h
  · exact h1 h
  · exact h2 h

/-- `find?` returns the head of the filtered list. -/
theorem find?_eq_head?_filter {α : Type} (p : α → Bool) (l : List α) :
    l.find? p = (l.filter p).head? := by
  induction l with
  | nil => rfl
  | cons a l ih =>
      by_cases hp : p a = true
      · rw [List.find?_cons_of_pos _ hp, List.filter_cons_of_pos hp, List.head?_cons]
      · rw [List.find?_cons_of_neg _ hp, List.filter_cons_of_neg hp, ih]

/-! ## Claim theorems -/

/-- Claim C1: for every parameter slot and values `v1 ≠ v2`: a set while the
stored value is `None` emits no change message; a set from `v1` to `v1` emits
no message; a set from `v1` to `v2` performs exactly one `ParameterChanged`
enqueue carrying `v2`, placed before the store that overwrites the value; and
in every case the write is applied unconditionally, so a read after the set
returns the new value. -/
theorem C1_parameter_change_detection {V : Type} [DecidableEq V]
    (p : StrategyParameter V) (v1 v2 : V) :
    (p.stored = none →
      (p.set (some v1)).2 = [ParamEvent.store (some v1)]) ∧
    (p.stored = some v1 →
      (p.set (some v1)).2 = [ParamEvent.store (some v1)]) ∧
    (p.stored = some v1 → v1 ≠ v2 →
      (p.set (some v2)).2 =
        [ParamEvent.enqueue p.name (some v2), ParamEvent.store (some v2)]) ∧
    (∀ v : Option V, (p.set v).1.stored = v) := by
  refine ⟨fun h => ?_, fun h => ?_, fun h hne => ?_, fun v => ?_⟩
  · exact strategyParameter_set_events_silent p (some v1) (Or.inl h)
  · exact strategyParameter_set_events_silent p (some v1) (Or.inr h)
  · exact strategyParameter_set_events_emit p (some v2) (by simp [h])
      (by simp [h, hne])
  · exact strategyParameter_set_stored p v

/-- Witness for C1: a concrete slot storing `1` set to `2` enqueues exactly one
change message carrying `2` before the store, and the read-back is `2`. -/
theorem C1_parameter_change_detection_witness :
    ((⟨"bid_spread", none, some 1⟩ : StrategyParameter Nat).set (some 2)).2 =
      [ParamEvent.enqueue "bid_spread" (some 2), ParamEvent.store (some 2)] ∧
    ((⟨"bid_spread", none, some 1⟩ : StrategyParameter Nat).set (some 2)).1.stored =
      some 2 :=
  ⟨(C1_parameter_change_detection ⟨"bid_spread", none, some 1⟩ 1 2).2.2.1 rfl
      (by decide),
    (C1_parameter_change_detection ⟨"bid_spread", none, some 1⟩ 1 2).2.2.2 (some 2)⟩

/-- Claim C10: setting a slot holding `v` to `None` emits a `ParameterChanged`
message whose carried value is `None` and returns the slot to the unset state,
so the immediately following set to any `w` emits no message. -/
theorem C10_set_to_none_emits_and_resets {V : Type} [DecidableEq V]
    (p : StrategyParameter V) (v : V) (h : p.stored = some v) :
    (p.set none).2 = [ParamEvent.enqueue p.name none, ParamEvent.store none] ∧
    (p.set none).1.stored = none ∧
    (∀ w : V, ((p.set none).1.set (some w)).2 = [ParamEvent.store (some w)]) := by
  refine ⟨?_, ?_, fun w => ?_⟩
  · exact strategyParameter_set_events_emit p none (by simp [h]) (by simp [h])
  · exact strategyParameter_set_stored p none
  · exact strategyParameter_set_events_silent (p.set none).1 (some w)
      (Or.inl (strategyParameter_set_stored p none))

/-- Witness for C10: a concrete slot storing `3` set to `None` emits one
change message carrying `None`; setting it to `5` afterwards emits none. -/
theorem C10_set_to_none_emits_and_resets_witness :
    ((⟨"order_amount", none, some 3⟩ : StrategyParameter Nat).set none).2 =
      [ParamEvent.enqueue "order_amount" none, ParamEvent.store none] ∧
    (((⟨"order_amount", none, some 3⟩ : StrategyParameter Nat).set none).1.set
        (some 5)).2 = [ParamEvent.store (some 5)] :=
  ⟨(C10_set_to_none_emits_and_resets ⟨"order_amount", none, some 3⟩ 3 rfl).1,
    (C10_set_to_none_emits_and_resets ⟨"order_amount", none, some 3⟩ 3 rfl).2.2 5⟩

/-- Claim C4 (code bug evidence): at a tick whose total balances (`2`) differ
from its available balances (`1`), the call built by `ScriptAdapter.tick`
carries the total balances in the available-balances slot, so the delivered
available-balances field does not equal the `all_available_balances`
argument. -/
theorem C4_adapter_tick_duplicates_total_balances :
    @ScriptAdapter.tick Unit Unit ℚ Unit Unit true () () 2 1 () () =
      some { mid_price := (), pmm_parameters := (), all_total_balances := 2,
             all_available_balances := 2, orders := (), trades := () } ∧
    (@ScriptAdapter.tick Unit Unit ℚ Unit Unit true () () 2 1 () ()).map
        (fun c => c.all_available_balances) ≠ some 1 := by
  refine ⟨rfl, ?_⟩
  intro hc
  simp only [ScriptAdapter.tick, if_pos, Option.map_some] at hc
  have : (2 : ℚ) = 1 := by injection hc
  norm_num at this

/-- Claim C5: every tick is delivered to and processed by the script
regardless of hook failures, and each raising hook contributes exactly one
captured `Error(cause, trace)` message, in order, with nothing propagating
out of the bridge (the run is a total function into the bridge state). -/
theorem C5_hook_errors_captured (on_tick : Nat → HookOutcome) (ticks : List Nat) :
    (run_ticks on_tick ticks).ticks_delivered = ticks ∧
    (run_ticks on_tick ticks).errors = ticks.filterMap (raised_error on_tick) := by
  unfold run_ticks
  rw [foldl_deliver_tick]
  exact ⟨by simp, by simp⟩

/-- Claim C6: with an active script, the reserved command `"live"` only
launches the live-update loop and the script's `on_command` hook is never
invoked; every other command reaches `on_command` exactly once with the
command string and argument list unchanged. -/
theorem C6_live_command_reserved (cmd : String) (args : List String) :
    script_command true "live" args = ScriptCommandAction.launch_live_updates ∧
    on_command_calls true true "live" args = [] ∧
    (cmd ≠ "live" →
      script_command true cmd args = ScriptCommandAction.forward cmd args ∧
      on_command_calls true true cmd args = [(cmd, args)]) := by
  refine ⟨rfl, rfl, fun h => ?_⟩
  constructor
  · simp [script_command, h]
  · simp [on_command_calls, script_command, h, ScriptAdapter.command]

/-- Witness for C6: the command `"spreads"` with arguments `["1", "2"]`
reaches `on_command` exactly once, verbatim. -/
theorem C6_live_command_reserved_witness :
    on_command_calls true true "spreads" ["1", "2"] = [("spreads", ["1", "2"])] :=
  ((C6_live_command_reserved "spreads" ["1", "2"]).2.2 (by decide)).2

/-- Claim C8 counterexample: a loaded module exposing two qualifying concrete
subtypes of `ScriptBase` does not make the load fail; `load_script` activates
the first discovered subtype. -/
theorem C8_counterexample_two_candidates_load :
    moduleWithTwoScripts.countP qualifiesAsScript = 2 ∧
    load_script moduleWithTwoScripts =
      some { name := "AScript", is_class := true, is_script_base_subclass := true } := by
  constructor
  · rfl
  · rfl

/-- Claim C8 as amended: loading fails (no script is activated) exactly when
the source unit exposes zero qualifying concrete subtypes of `ScriptBase`;
otherwise the first qualifying subtype in discovery order is activated — in
particular, with exactly one qualifying subtype, that one. -/
theorem C8_amended_loader_takes_first_candidate (module_dir : List ModuleMember) :
    load_script module_dir = (module_dir.filter qualifiesAsScript).head? ∧
    (load_script module_dir = none ↔
      ∀ e ∈ module_dir, qualifiesAsScript e = false) := by
  have h : load_script module_dir = (module_dir.filter qualifiesAsScript).head? :=
    find?_eq_head?_filter qualifiesAsScript module_dir
  refine ⟨h, ?_⟩
  rw [h, List.head?_eq_none_iff, List.filter_eq_nil_iff]
  simp

/-- Witness for C8's amended claim: on the concrete two-candidate module the
loader activates the head of the qualifying-candidate list. -/
theorem C8_amended_loader_takes_first_candidate_witness :
    load_script moduleWithTwoScripts =
      (moduleWithTwoScripts.filter qualifiesAsScript).head? :=
  (C8_amended_loader_takes_first_candidate moduleWithTwoScripts).1

/-- Claim C3 (code bug evidence): the executable body of
`locate_central_price_volatility` returns `None` on every input (and so does
`avg_price_volatility`), even where its documented behavior — sampling
`length + 1` mid prices and applying the reducer to the consecutive ratio
changes — produces a value: with mid prices `[1, 2]`, interval `1`, length
`1`, the documented computation yields `mean [2/1 - 1] = 1`. -/
theorem C3_volatility_body_always_none :
    locate_central_price_volatility [1, 2] 1 1 meanQ = none ∧
    avg_price_volatility [1, 2] 1 1 = none ∧
    (∀ (mid_prices : List ℚ) (interval length : Nat) (f : List ℚ → ℚ),
      locate_central_price_volatility mid_prices interval length f = none) ∧
    locate_central_price_volatility_doc [1, 2] 1 1 meanQ = some 1 := by
  refine ⟨rfl, rfl, fun _ _ _ _ => rfl, ?_⟩
  have hs : take_samples ([1, 2] : List ℚ) 1 2 = some [1, 2] := by rfl
  rw [locate_central_price_volatility_doc, hs]
  norm_num [meanQ, List.range_succ]

/-- Reversing `range n` enumerates `n - 1 - i`. -/
theorem range_reverse (n : Nat) :
    (List.range n).reverse = (List.range n).map (fun i => n - 1 - i) := by
  rw [List.range_eq_range', List.reverse_range']
  rw [← List.range_eq_range']
  exact List.map_congr_left fun k _ => by omega

/-- Dropping `k` elements of `range c` shifts the remaining enumeration. -/
theorem range_drop (c k : Nat) (h : k ≤ c) :
    (List.range c).drop k = (List.range (c - k)).map (fun j => k + j) := by
  have hsplit : List.range c = List.range k ++ (List.range (c - k)).map (fun j => k + j) := by
    rw [← List.range_add, Nat.add_sub_cancel' h]
  rw [hsplit]
  have := List.drop_left (List.range k) ((List.range (c - k)).map (fun j => k + j))
  rwa [List.length_range] at this

/-- The strided index count of a nonempty list. -/
theorem strided_sample_count_succ (m interval : Nat) (h : 1 ≤ interval) :
    strided_sample_count (m + 1) interval = m / interval + 1 := by
  unfold strided_sample_count
  have h1 : m + 1 + interval - 1 = m + interval := by omega
  rw [h1, Nat.add_div_right _ h]

/-- The embedded `take_samples` agrees with the spec-side description for
every list, positive interval and positive length. -/
theorem take_samples_eq_spec {α : Type} [Inhabited α] (a_list : List α)
    (interval length : Nat) (hiv : 1 ≤ interval) (hlen : 1 ≤ length) :
    take_samples a_list interval length = take_samples_spec a_list interval length := by
  have hpos : 0 < length := hlen
  rcases hn : a_list.length with _ | m
  · -- empty list: no strided indices at all
    have hnil : a_list = [] := List.length_eq_zero.mp hn
    subst hnil
    have hcount : strided_sample_count 0 interval = 0 :=
      Nat.div_eq_of_lt (by omega)
    simp [take_samples, take_samples_spec, pyRangeDown, hcount, hpos]
  · -- nonempty list of length m + 1
    set c := m / interval + 1 with hc
    have hcast : ((a_list.length : Int) - 1) = (m : Int) := by rw [hn]; push_cast; ring
    have hpy : pyRangeDown ((a_list.length : Int) - 1) interval =
        (List.range c).map (fun (k : Nat) => (m : Int) - (k : Int) * (interval : Int)) := by
      unfold pyRangeDown
      rw [hcast, if_neg (not_lt.mpr (Int.natCast_nonneg m)), Int.toNat_natCast]
    have hsorted : (pyRangeDown ((a_list.length : Int) - 1) interval).reverse =
        (List.range c).map
          (fun (k : Nat) => (m : Int) - ((c - 1 - k : Nat) : Int) * (interval : Int)) := by
      rw [hpy, ← List.map_reverse, range_reverse, List.map_map]
      exact List.map_congr_left fun k _ => rfl
    have hslen : ((List.range c).map
        (fun (k : Nat) => (m : Int) - ((c - 1 - k : Nat) : Int) * (interval : Int))).length = c := by
      rw [List.length_map, List.length_range]
    have hcount : strided_sample_count a_list.length interval = c := by
      rw [hn]; exact strided_sample_count_succ m interval hiv
    rw [take_samples, take_samples_spec, hcount]
    simp only [hsorted, hslen]
    by_cases hcl : c < length
    · -- shortage: fewer strided indices than requested
      rw [if_pos hcl, if_pos]
      rw [List.length_drop, hslen]
      omega
    · -- enough strided indices
      have hlc : length ≤ c := by omega
      have hdrop : ((List.range c).map
          (fun (k : Nat) => (m : Int) - ((c - 1 - k : Nat) : Int) * (interval : Int))).drop
            (c - length) =
          (List.range length).map
            (fun j => (m : Int) - ((length - 1 - j : Nat) : Int) * (interval : Int)) := by
        rw [← List.map_drop, range_drop c (c - length) (by omega), List.map_map]
        have hck : c - (c - length) = length := by omega
        rw [hck]
        refine List.map_congr_left fun j hj => ?_
        have hjl : j < length := List.mem_range.mp hj
        have h2 : c - 1 - (c - length + j) = length - 1 - j := by omega
        simp only [Function.comp_apply]
        rw [h2]
      have hval : ∀ j, a_list.getD
          ((m : Int) - ((length - 1 - j : Nat) : Int) * (interval : Int)).toNat default =
          a_list.getD (m - (length - 1 - j) * interval) default := by
        intro j
        congr 1
        have h3 : (m : Int) - ((length - 1 - j : Nat) : Int) * (interval : Int) =
            (m : Int) - (((length - 1 - j) * interval : Nat) : Int) := by push_cast; ring
        rw [h3, Int.toNat_sub]
      have hmlen : a_list.length - 1 = m := by omega
      rw [hdrop, if_neg hcl, if_neg, hmlen]
      · by_cases h1 : length = 1
        · subst h1
          have hr1 : List.range 1 = [0] := rfl
          rw [if_pos]
          · rw [hr1]
            simp only [List.map_cons, List.map_nil, List.getD_cons_zero]
            rw [hval 0]
          · rw [List.length_map, List.length_range]
        · rw [if_neg, List.map_map]
          · refine congrArg some (List.map_congr_left fun j hj => ?_)
            simp only [Function.comp_apply]
            exact hval j
          · rw [List.length_map, List.length_range]
            exact h1
      · rw [List.length_map, List.length_range]
        omega

/-- Claim C2: for every list, positive interval and positive length,
`take_samples` returns the `length` values at indices counting backward from
the last index in steps of `interval`, reordered chronologically; it returns
`None` when fewer than `length` such strided indices exist; with
`length = 1` and enough data it returns the one most recent strided sample;
and the three concrete examples hold. -/
theorem C2_take_samples_strided (α : Type) [Inhabited α] :
    (∀ (a_list : List α) (interval length : Nat), 1 ≤ interval → 1 ≤ length →
      take_samples a_list interval length = take_samples_spec a_list interval length) ∧
    take_samples ([1, 2, 3, 4, 5, 6, 7] : List Nat) 3 2 = some [4, 7] ∧
    take_samples ([1, 2, 3, 4, 5, 6, 7] : List Nat) 2 4 = some [1, 3, 5, 7] ∧
    take_samples ([1, 2, 3] : List Nat) 1 10 = none ∧
    take_samples ([1, 2, 3] : List Nat) 2 1 = some [3] :=
  ⟨fun a_list interval length hiv hlen =>
      take_samples_eq_spec a_list interval length hiv hlen,
    by decide, by decide, by decide, by decide⟩

/-- Witness for C2: the equivalence applied at a concrete list, interval and
length. -/
theorem C2_take_samples_strided_witness :
    take_samples ([10, 20, 30, 40, 50] : List Nat) 2 2 =
      take_samples_spec ([10, 20, 30, 40, 50] : List Nat) 2 2 :=
  (C2_take_samples_strided Nat).1 [10, 20, 30, 40, 50] 2 2 (by decide) (by decide)

/-- When the quotient is nonnegative, `Decimal` divide-integer agrees with the
floor, so `round_by_step` floors to a multiple of the step. -/
theorem round_by_step_eq_floor (x s : ℚ) (h : 0 ≤ x / s) :
    round_by_step x s = (⌊x / s⌋ : ℚ) * s := by
  unfold round_by_step
  congr 2
  rw [Int.tdiv_eq_ediv (Rat.num_nonneg.mpr h) (Int.natCast_nonneg _), Rat.floor_def]

/-- When the quotient is nonpositive, `Decimal` divide-integer truncates
toward zero, i.e. negated floor of the negated quotient. -/
theorem round_by_step_eq_neg_floor_neg (x s : ℚ) (h : x / s ≤ 0) :
    round_by_step x s = (-(⌊-(x / s)⌋ : ℚ)) * s := by
  unfold round_by_step
  congr 1
  have h1 : (x / s).num.tdiv ((x / s).den : Int) =
      -((-(x / s).num).tdiv ((x / s).den : Int)) := by
    rw [Int.neg_tdiv, neg_neg]
  have h2 : (-(x / s).num).tdiv ((x / s).den : Int) = ⌊-(x / s)⌋ := by
    rw [Int.tdiv_eq_ediv (by have := Rat.num_nonpos.mpr h; omega) (Int.natCast_nonneg _)]
    rw [Rat.floor_def, Rat.neg_num, Rat.neg_den]
  rw [h1, h2]
  push_cast
  ring

/-- Claim C9 counterexample: at `x = -1.8`, `s = 0.25` the code returns
`-1.75`, which is not less than or equal to `x`, so it is not the greatest
multiple of the step below `x` (Python `Decimal` floor division truncates
toward zero rather than flooring). -/
theorem C9_counterexample_negative_value :
    round_by_step (-9/5) (1/4) = -7/4 ∧
    ¬ IsGreatestStepMultipleLE (-9/5) (1/4) (round_by_step (-9/5) (1/4)) := by
  have hq : ((-9 : ℚ)/5) / (1/4) = -36/5 := by norm_num
  have hval : round_by_step (-9/5) (1/4) = -7/4 := by
    rw [round_by_step_eq_neg_floor_neg (-9/5) (1/4) (by rw [hq]; norm_num), hq]
    norm_num
  refine ⟨hval, fun hg => ?_⟩
  obtain ⟨-, hle, -⟩ := hg
  rw [hval] at hle
  norm_num at hle

/-- Claim C9 as amended: for every nonnegative `x` and positive step `s`,
`round_by_step x s` is the greatest multiple of `s` less than or equal to
`x`, and the documented example `round_by_step 1.8 0.25 = 1.75` holds.  (For
negative non-multiple `x` the `Decimal` divide-integer truncates toward zero,
so the result exceeds `x`.) -/
theorem C9_amended_floor_multiple :
    (∀ x s : ℚ, 0 ≤ x → 0 < s →
      IsGreatestStepMultipleLE x s (round_by_step x s)) ∧
    round_by_step (9/5) (1/4) = 7/4 := by
  constructor
  · intro x s hx hs
    have hq : 0 ≤ x / s := div_nonneg hx hs.le
    rw [round_by_step_eq_floor x s hq]
    refine ⟨⟨⌊x / s⌋, rfl⟩, ?_, ?_⟩
    · calc (⌊x / s⌋ : ℚ) * s ≤ (x / s) * s :=
            mul_le_mul_of_nonneg_right (Int.floor_le _) hs.le
        _ = x := div_mul_cancel₀ x hs.ne'
    · rintro m' ⟨k, rfl⟩ hm'
      have hk : (k : ℚ) ≤ x / s := (le_div_iff₀ hs).mpr hm'
      have hkf : k ≤ ⌊x / s⌋ := Int.le_floor.mpr hk
      exact mul_le_mul_of_nonneg_right (by exact_mod_cast hkf) hs.le
  · rw [round_by_step_eq_floor (9/5) (1/4) (by norm_num)]
    norm_num

/-- Witness for C9's amended claim: the greatest-multiple property applied at
`x = 2`, `s = 1`. -/
theorem C9_amended_floor_multiple_witness :
    IsGreatestStepMultipleLE 2 1 (round_by_step 2 1) :=
  C9_amended_floor_multiple.1 2 1 (by decide) (by decide)

/-- `countP` after replacing the element found at index `i`. -/
theorem countP_set_of_get? {α : Type} (p : α → Bool) (l : List α) (i : Nat)
    (a old : α) (h : l.get? i = some old) :
    (l.set i a).countP p =
      l.countP p - (if p old then 1 else 0) + (if p a then 1 else 0) := by
  rcases List.get?_eq_some.mp h with ⟨hi, hval⟩
  rw [List.get_eq_getElem] at hval
  rw [List.countP_set p l i a hi, hval]

/-- Safety invariant of the live-update subsystem: at most one loop is
polling, and the "stopped" notifications emitted equal the loops that have
terminated. -/
theorem live_loop_invariant (s : LiveState) (h : LiveReachable s) :
    s.threads.countP isLooping ≤ 1 ∧
    s.stopped_notes = s.threads.countP isFinished := by
  induction h with
  | init => exact ⟨by decide, rfl⟩
  | step hr hstep ih =>
      obtain ⟨h1, h2⟩ := ih
      cases hstep with
      | spawn =>
          refine ⟨?_, ?_⟩ <;>
            simp [List.countP_append, isLooping, isFinished] <;> omega
      | clear_flag i hget =>
          refine ⟨?_, ?_⟩ <;>
            rw [countP_set_of_get? _ _ _ _ _ hget] <;>
            simp [isLooping, isFinished] <;> omega
      | begin_loop i hget hquiet =>
          have hzero : ∀ l : List LiveThread,
              (∀ th ∈ l, isLooping th = false) → l.countP isLooping = 0 :=
            fun l hl => List.countP_eq_zero.mpr (fun a ha => by simp [hl a ha])
          refine ⟨?_, ?_⟩ <;> rw [countP_set_of_get? _ _ _ _ _ hget] <;>
            simp [isLooping, isFinished, hzero _ hquiet] <;> omega
      | poll i hget hflag => exact ⟨h1, h2⟩
      | exit_loop i hget hflag =>
          refine ⟨?_, ?_⟩ <;> rw [countP_set_of_get? _ _ _ _ _ hget] <;>
            simp [isLooping, isFinished] <;> omega
      | user_clear => exact ⟨h1, h2⟩

/-- Claim C7: in every reachable state of the live-update subsystem, at most
one live-update loop is polling (a new loop can only begin once every prior
loop has terminated, because `stop_live_update` clears the shared flag and
waits); the number of "stopped" notifications emitted equals the number of
loops that have terminated — each terminating loop emits exactly one; and a
polling loop whose flag has been cleared can take only the step that
terminates it and emits its single notification. -/
theorem C7_single_live_loop (s : LiveState) (h : LiveReachable s) :
    s.threads.countP isLooping ≤ 1 ∧
    s.stopped_notes = s.threads.countP isFinished ∧
    (∀ i, s.live_updates = false →
      s.threads.get? i = some LiveThread.looping →
      LiveStep s { live_updates := false,
                   threads := s.threads.set i LiveThread.finished,
                   stopped_notes := s.stopped_notes + 1 }) := by
  refine ⟨(live_loop_invariant s h).1, (live_loop_invariant s h).2, ?_⟩
  intro i hf hl
  have hstep := LiveStep.exit_loop s i hl hf
  rwa [hf] at hstep

/-- Witness for C7: the invariant holds at the concrete reachable state in
which one live-update loop is polling after a spawn, flag clear and loop
start. -/
theorem C7_single_live_loop_witness :
    ([LiveThread.looping].countP isLooping ≤ 1) ∧
    ((0 : Nat) = [LiveThread.looping].countP isFinished) := by
  have r1 : LiveReachable ⟨false, [LiveThread.stopping], 0⟩ :=
    LiveReachable.step LiveReachable.init (LiveStep.spawn LiveInit)
  have r2 : LiveReachable ⟨false, [LiveThread.waiting], 0⟩ :=
    LiveReachable.step r1
      (LiveStep.clear_flag ⟨false, [LiveThread.stopping], 0⟩ 0 rfl)
  have r3 : LiveReachable ⟨true, [LiveThread.looping], 0⟩ :=
    LiveReachable.step r2
      (LiveStep.begin_loop ⟨false, [LiveThread.waiting], 0⟩ 0 rfl (by decide))
  exact ⟨(C7_single_live_loop _ r3).1, (C7_single_live_loop _ r3).2.1⟩
